import Mathlib

/-!
# Verification of the devdash live-state reconciliation engine

A shallow embedding, in Lean 4, of the parts of the `devdash` repository
(`src/devdash/app.py`, `src/devdash/processes.py`) that its specification
makes checkable claims about:

* the snapshot reconciler `DevDashApp._check_notifications`,
* the filter predicate `DevDashApp._row_matches_filter`,
* the sort machinery (`_parse_sort_value`, `on_data_table_header_selected`,
  `_sort_table`),
* the cursor restoration in `_update_dev_tables` / `_update_system_tab`,
* the refresh step `DevDashApp._update_all`, and
* the process-termination helpers `kill_process` / `kill_node_process`.

Python strings are modelled as `List Char` (ASCII case folding via
`Char.toLower`, matching the ASCII texts the tables display), Python sets
coming from a snapshot as duplicate-free `List`s, Python floats produced by
`float()` on decimal literals as exact rationals `ℚ` (the ordering of the
small decimals displayed in the tables is unaffected by IEEE rounding),
and Python dicts keyed by pid as association lists.
-/

namespace Devdash

/-! ## Data model

`NodeProcess` keeps the two attributes the reconciler
(`_check_notifications`) reads: the identity key `pid` and the bound
`ports` (produced sorted and duplicate-free by `_get_process_ports`).
The remaining display-only attributes (name, command, cpu, …) enter the
engine only as rendered cell texts, which the table layer below models as
plain `List Char` cells.  Docker containers enter the reconciler only
through their identity key `container_id`, modelled as a `String`. -/

structure NodeProcess where
  pid : Nat
  ports : List Nat
deriving DecidableEq, Repr

/-- The mutable tracking fields of `DevDashApp` read and written by
`_check_notifications`: `_prev_node_pids`, `_prev_node_ports`,
`_prev_docker_ids`, `_tracking_initialized`. -/
structure CheckState where
  prev_node_pids : List Nat
  prev_node_ports : List (Nat × List Nat)
  prev_docker_ids : List String
  tracking_initialized : Bool
deriving DecidableEq, Repr

/-- The notifications `_check_notifications` can emit, one constructor per
`self.notify(...)` call site, carrying the data interpolated into the
message text. -/
inductive Event where
  | nodeExited (pid : Nat) (ports : List Nat)
  | dockerStopped (cid : String)
  | newNodeProcess (pid : Nat) (ports : List Nat)
  | watchedPortActive (port : Nat) (pid : Nat)
deriving DecidableEq, Repr

/-- `self._prev_node_ports.get(pid, [])`. -/
def portsLookup (m : List (Nat × List Nat)) (pid : Nat) : List Nat :=
  match m.find? (fun kv => kv.1 == pid) with
  | some kv => kv.2
  | none => []

/-- The body of the `for proc in node_procs:` loop of
`_check_notifications` (app.py lines 631–640): the notifications one
process of the new snapshot contributes.  A process that is not in the
previous baseline and holds at least one port yields the "New node
process" notification; otherwise, when watched ports are configured, each
of its ports that is watched and was not previously held yields a
"Watched port active" notification. -/
def proc_events (watched : List Nat) (st : CheckState) (proc : NodeProcess) : List Event :=
  if !st.prev_node_pids.contains proc.pid && !proc.ports.isEmpty then
    [Event.newNodeProcess proc.pid proc.ports]
  else if !watched.isEmpty && !proc.ports.isEmpty then
    (proc.ports.filter (fun port =>
        watched.contains port &&
        !(portsLookup st.prev_node_ports proc.pid).contains port)).map
      (fun port => Event.watchedPortActive port proc.pid)
  else []

/-- `DevDashApp._check_notifications` (app.py lines 605–644) as a pure
transition: given the configured `watched` ports
(`self._config.watched_ports`), the tracking state, and the new snapshot
(node processes plus docker container ids), it returns the emitted
notifications in program order together with the updated tracking state. -/
def check_notifications (watched : List Nat) (st : CheckState)
    (node_procs : List NodeProcess) (docker_ids : List String) :
    List Event × CheckState :=
  let current_pids := node_procs.map (·.pid)
  let current_ports := node_procs.map (fun p => (p.pid, p.ports))
  if st.tracking_initialized = false then
    ([], ⟨current_pids, current_ports, docker_ids, true⟩)
  else
    let vanished_pids := st.prev_node_pids.filter (fun pid => !current_pids.contains pid)
    let ev1 := vanished_pids.map
      (fun pid => Event.nodeExited pid (portsLookup st.prev_node_ports pid))
    let vanished_containers := st.prev_docker_ids.filter (fun cid => !docker_ids.contains cid)
    let ev2 := vanished_containers.map Event.dockerStopped
    let ev3 := node_procs.flatMap (proc_events watched st)
    (ev1 ++ ev2 ++ ev3, ⟨current_pids, current_ports, docker_ids, true⟩)

/-! ## Reconciler lemmas (claims C1, C2) -/

theorem nodeExited_not_mem_proc_events (watched : List Nat) (st : CheckState)
    (proc : NodeProcess) (pid : Nat) (ports : List Nat) :
    Event.nodeExited pid ports ∉ proc_events watched st proc := by
  unfold proc_events
  split
  · simp
  · split
    · simp
    · simp

theorem dockerStopped_not_mem_proc_events (watched : List Nat) (st : CheckState)
    (proc : NodeProcess) (cid : String) :
    Event.dockerStopped cid ∉ proc_events watched st proc := by
  unfold proc_events
  split
  · simp
  · split
    · simp
    · simp

theorem newNodeProcess_mem_proc_events_iff (watched : List Nat) (st : CheckState)
    (proc : NodeProcess) (pid : Nat) (ports : List Nat) :
    Event.newNodeProcess pid ports ∈ proc_events watched st proc ↔
      proc.pid = pid ∧ proc.ports = ports ∧
        proc.pid ∉ st.prev_node_pids ∧ proc.ports ≠ [] := by
  unfold proc_events
  split
  · rename_i h
    simp [List.contains] at h
    simp only [List.mem_singleton, Event.newNodeProcess.injEq]
    constructor
    · rintro ⟨rfl, rfl⟩; exact ⟨rfl, rfl, h.1, h.2⟩
    · rintro ⟨rfl, rfl, -, -⟩; exact ⟨rfl, rfl⟩
  · rename_i h
    simp [List.contains] at h
    split
    · simp only [List.mem_map, List.mem_filter]
      constructor
      · rintro ⟨port, -, hEq⟩; cases hEq
      · rintro ⟨-, -, hnm, hne⟩; exact absurd (h hnm) (by simpa using hne)
    · simp only [List.not_mem_nil, false_iff, not_and]
      intro _ _ hnm hne
      exact absurd (h hnm) (by simpa using hne)

theorem watchedPortActive_mem_proc_events_iff (watched : List Nat) (st : CheckState)
    (proc : NodeProcess) (port pid : Nat) :
    Event.watchedPortActive port pid ∈ proc_events watched st proc ↔
      proc.pid = pid ∧ proc.pid ∈ st.prev_node_pids ∧ port ∈ proc.ports ∧
        port ∈ watched ∧ port ∉ portsLookup st.prev_node_ports proc.pid := by
  unfold proc_events
  split
  · rename_i h
    simp [List.contains] at h
    constructor
    · intro hmem
      rw [List.mem_singleton] at hmem
      exact Event.noConfusion hmem
    · rintro ⟨-, hprev, -, -, -⟩
      exact (h.1 hprev).elim
  · rename_i h
    simp [List.contains] at h
    split
    · simp only [List.mem_map, List.mem_filter]
      constructor
      · rintro ⟨port2, ⟨hmem, hcond⟩, hEq⟩
        cases hEq
        simp [List.contains] at hcond
        refine ⟨rfl, ?_, hmem, hcond.1, hcond.2⟩
        by_contra hnm
        exact (List.ne_nil_of_mem hmem) (h hnm)
      · rintro ⟨rfl, hprev, hmem, hw, hnp⟩
        exact ⟨port, ⟨hmem, by simp [List.contains, hw, hnp]⟩, rfl⟩
    · rename_i h2
      simp [List.contains] at h2
      simp only [List.not_mem_nil, false_iff]
      rintro ⟨rfl, hprev, hmem, hw, hnp⟩
      exact (List.ne_nil_of_mem hmem) (h2 (List.ne_nil_of_mem hw))

/-- On an already-initialized tracking state the reconciler emits the
vanished-node, vanished-container and appeared-node notifications in
program order. -/
theorem check_notifications_fst (watched : List Nat) (st : CheckState)
    (procs : List NodeProcess) (docker_ids : List String)
    (hinit : st.tracking_initialized = true) :
    (check_notifications watched st procs docker_ids).1 =
      (st.prev_node_pids.filter (fun pid => !(procs.map (·.pid)).contains pid)).map
        (fun pid => Event.nodeExited pid (portsLookup st.prev_node_ports pid))
      ++ (st.prev_docker_ids.filter (fun cid => !docker_ids.contains cid)).map Event.dockerStopped
      ++ procs.flatMap (proc_events watched st) := by
  simp [check_notifications, hinit]

/-- C1, counterexample to the claim as stated.  On the second cycle the
snapshot contains a new node process with pid 100 and no ports, so
`100 ∈ ids(S₂) − ids(S₁)`, yet the reconciler emits no event at all:
the "Appeared" notification (app.py line 632) additionally requires
`proc.ports` to be non-empty. -/
theorem appeared_event_missing_for_portless_process :
    (check_notifications [] ⟨[], [], [], true⟩ [⟨100, []⟩] []).1 = []
    ∧ 100 ∈ ([⟨100, []⟩] : List NodeProcess).map (·.pid)
    ∧ 100 ∉ (⟨[], [], [], true⟩ : CheckState).prev_node_pids := by
  refine ⟨by decide, by decide, by decide⟩

/-- C1 (amended): the very first poll cycle seeds the baseline and emits
zero events; afterwards a `Vanished` event is emitted exactly for each
identity key in `ids(S₁) − ids(S₂)` (node pids and docker container ids
alike, the node event carrying the last-known ports), while an `Appeared`
event is emitted exactly for each node pid in `ids(S₂) − ids(S₁)` whose
current port list is non-empty — a newly appeared portless node process,
and any newly appeared docker container, yields no event. -/
theorem check_notifications_event_characterization (watched : List Nat) (st : CheckState)
    (procs : List NodeProcess) (docker_ids : List String)
    (pns : List Nat) (pps : List (Nat × List Nat)) (dis : List String)
    (hinit : st.tracking_initialized = true) :
    ((check_notifications watched ⟨pns, pps, dis, false⟩ procs docker_ids).1 = [])
    ∧ (∀ pid ports, Event.nodeExited pid ports ∈ (check_notifications watched st procs docker_ids).1 ↔
        pid ∈ st.prev_node_pids ∧ pid ∉ procs.map (·.pid) ∧ ports = portsLookup st.prev_node_ports pid)
    ∧ (∀ cid, Event.dockerStopped cid ∈ (check_notifications watched st procs docker_ids).1 ↔
        cid ∈ st.prev_docker_ids ∧ cid ∉ docker_ids)
    ∧ (∀ pid ports, Event.newNodeProcess pid ports ∈ (check_notifications watched st procs docker_ids).1 ↔
        ∃ proc ∈ procs, proc.pid = pid ∧ proc.ports = ports ∧ pid ∉ st.prev_node_pids ∧ ports ≠ []) := by
  refine ⟨by simp [check_notifications], ?_, ?_, ?_⟩
  all_goals rw [check_notifications_fst watched st procs docker_ids hinit]
  · intro pid ports
    simp [List.mem_filter, List.contains, nodeExited_not_mem_proc_events]
    constructor
    · rintro ⟨a, ⟨ha, hall⟩, rfl, rfl⟩; exact ⟨ha, hall, rfl⟩
    · rintro ⟨ha, hall, rfl⟩; exact ⟨pid, ⟨ha, hall⟩, rfl, rfl⟩
  · intro cid
    simp [List.mem_filter, List.contains, dockerStopped_not_mem_proc_events]
  · intro pid ports
    simp [List.mem_filter, List.contains, newNodeProcess_mem_proc_events_iff]
    constructor
    · rintro ⟨proc, hp, rfl, rfl, hn, hne⟩
      exact ⟨proc, hp, rfl, rfl, hn, hne⟩
    · rintro ⟨proc, hp, rfl, rfl, hn, hne⟩
      exact ⟨proc, hp, rfl, rfl, hn, hne⟩

/-- Witness for the C1 theorem at a concrete input: baseline holds node
pid 100 (portless) and container "abc"; the new snapshot holds node pid
200 on port 3000 and no containers, so an Appeared event for 200 is
emitted. -/
theorem check_notifications_event_characterization_witness :
    Event.newNodeProcess 200 [3000] ∈
      (check_notifications [3000] ⟨[100], [(100, [])], ["abc"], true⟩ [⟨200, [3000]⟩] []).1 :=
  (((check_notifications_event_characterization [3000] ⟨[100], [(100, [])], ["abc"], true⟩
      [⟨200, [3000]⟩] [] [9] [] [] rfl).2.2.2) 200 [3000]).mpr
    ⟨⟨200, [3000]⟩, by simp, rfl, rfl, by simp, by simp⟩

/-- C2, counterexample to the claim as stated.  WatchSet = {3000}; on the
second cycle a *new* process pid 100 appears already bound to the watched
port 3000.  The claim requires a `WatchedPortActivated(100, 3000)` event,
but the code's `elif` (app.py line 635) is skipped for newly appeared
processes with ports: only the "New node process" notification fires. -/
theorem watched_port_event_missing_for_new_process :
    (check_notifications [3000] ⟨[], [], [], true⟩ [⟨100, [3000]⟩] []).1
      = [Event.newNodeProcess 100 [3000]]
    ∧ Event.watchedPortActive 3000 100 ∉
        (check_notifications [3000] ⟨[], [], [], true⟩ [⟨100, [3000]⟩] []).1 := by
  refine ⟨by decide, by decide⟩

/-- C2 (amended): after the first cycle, a `WatchedPortActivated(E, p)`
event is emitted exactly when `E` is in the current snapshot, `E` was
already present in the previous baseline, `p` is among `E`'s current
ports but not its previous ports, and `p` is in the configured WatchSet.
Newly appeared entities never produce this event (they produce the
"Appeared" notification instead when their port list is non-empty). -/
theorem watchedPortActive_characterization (watched : List Nat) (st : CheckState)
    (procs : List NodeProcess) (docker_ids : List String)
    (hinit : st.tracking_initialized = true) (port pid : Nat) :
    Event.watchedPortActive port pid ∈ (check_notifications watched st procs docker_ids).1 ↔
      ∃ proc ∈ procs, proc.pid = pid ∧ pid ∈ st.prev_node_pids ∧ port ∈ proc.ports ∧
        port ∈ watched ∧ port ∉ portsLookup st.prev_node_ports pid := by
  rw [check_notifications_fst watched st procs docker_ids hinit]
  simp [List.mem_filter, watchedPortActive_mem_proc_events_iff]
  constructor
  · rintro ⟨proc, hp, rfl, hprev, hports, hw, hnp⟩
    exact ⟨proc, hp, rfl, hprev, hports, hw, hnp⟩
  · rintro ⟨proc, hp, rfl, hprev, hports, hw, hnp⟩
    exact ⟨proc, hp, rfl, hprev, hports, hw, hnp⟩

/-- Witness for the C2 theorem: spec Scenario A, cycle 2 — P100 was in
the baseline with no ports and now holds watched port 3000, so
`WatchedPortActivated(P100, 3000)` is emitted. -/
theorem watchedPortActive_characterization_witness :
    Event.watchedPortActive 3000 100 ∈
      (check_notifications [3000] ⟨[100], [(100, [])], [], true⟩ [⟨100, [3000]⟩] []).1 :=
  ((watchedPortActive_characterization [3000] ⟨[100], [(100, [])], [], true⟩
      [⟨100, [3000]⟩] [] rfl 3000 100)).mpr
    ⟨⟨100, [3000]⟩, by simp, rfl, by simp, by simp, by simp, by simp [portsLookup]⟩

/-! ## Process termination (claims C3, C10)

`kill_process` (processes.py lines 364–374) and `kill_node_process`
(lines 211–221) have byte-identical bodies:

    proc = psutil.Process(pid); proc.terminate()
    try: proc.wait(timeout=3)
    except psutil.TimeoutExpired: proc.kill()
    return True
  except (NoSuchProcess, AccessDenied): return False

The target process is modelled by whether it exists when `psutil.Process`
/ `terminate` run, whether signalling it is permitted (a property of the
target process, checked identically for SIGTERM and SIGKILL), and the
time (in the same units as the 3-unit grace period, relative to the
terminate signal) at which it exits in response, `none` meaning it never
exits on its own.  Each call returns the boolean result together with the
timed trace of signals actually delivered. -/

inductive KillAction where
  | terminate
  | kill
deriving DecidableEq, Repr

structure KillTarget where
  procExists : Bool
  accessible : Bool
  exitTime : Option Nat
deriving DecidableEq, Repr

/-- The `timeout=3` passed to `proc.wait`. -/
def gracePeriod : Nat := 3

/-- Does the target survive past the grace period after SIGTERM? -/
def survivesGrace (t : KillTarget) : Bool :=
  match t.exitTime with
  | some et => gracePeriod < et
  | none => true

/-- `kill_process` (processes.py lines 364–374). -/
def kill_process (t : KillTarget) : Bool × List (Nat × KillAction) :=
  if t.procExists && t.accessible then
    match t.exitTime with
    | some et =>
      if et ≤ gracePeriod then (true, [(0, KillAction.terminate)])
      else (true, [(0, KillAction.terminate), (gracePeriod, KillAction.kill)])
    | none => (true, [(0, KillAction.terminate), (gracePeriod, KillAction.kill)])
  else (false, [])

/-- `kill_node_process` (processes.py lines 211–221), an exact duplicate
of `kill_process`. -/
def kill_node_process (t : KillTarget) : Bool × List (Nat × KillAction) :=
  if t.procExists && t.accessible then
    match t.exitTime with
    | some et =>
      if et ≤ gracePeriod then (true, [(0, KillAction.terminate)])
      else (true, [(0, KillAction.terminate), (gracePeriod, KillAction.kill)])
    | none => (true, [(0, KillAction.terminate), (gracePeriod, KillAction.kill)])
  else (false, [])

theorem kill_node_process_eq (t : KillTarget) : kill_node_process t = kill_process t := rfl

/-- C3: for a termination request on an existing, signal-permitted target
that does not exit within the 3-unit grace period, the forceful kill is
delivered exactly once, at exactly the end of the grace period (never
before); a target that exits within the grace period is never
force-killed.  Both `kill_process` and `kill_node_process` behave so. -/
theorem kill_escalation (t : KillTarget)
    (hex : t.procExists = true) (hacc : t.accessible = true) :
    (survivesGrace t = true →
        ((kill_process t).2.filter (fun e => e.2 == KillAction.kill))
            = [(gracePeriod, KillAction.kill)]
      ∧ ((kill_node_process t).2.filter (fun e => e.2 == KillAction.kill))
            = [(gracePeriod, KillAction.kill)])
    ∧ (survivesGrace t = false →
        (∀ e ∈ (kill_process t).2, e.2 ≠ KillAction.kill)
      ∧ (∀ e ∈ (kill_node_process t).2, e.2 ≠ KillAction.kill))
    ∧ (∀ n, (n, KillAction.kill) ∈ (kill_process t).2 → gracePeriod ≤ n) := by
  simp only [kill_node_process_eq]
  unfold kill_process survivesGrace
  rw [hex, hacc]
  cases t.exitTime with
  | none => simp
  | some et =>
    by_cases h : et ≤ gracePeriod
    · simp [h, Nat.not_lt.mpr h]
    · simp [h, Nat.lt_of_not_le h]

/-- Witness for C3 at a concrete input: an existing, accessible target
that never exits on its own is force-killed exactly once at time 3. -/
theorem kill_escalation_witness :
    (survivesGrace ⟨true, true, none⟩ = true →
        ((kill_process ⟨true, true, none⟩).2.filter (fun e => e.2 == KillAction.kill))
            = [(gracePeriod, KillAction.kill)]
      ∧ ((kill_node_process ⟨true, true, none⟩).2.filter (fun e => e.2 == KillAction.kill))
            = [(gracePeriod, KillAction.kill)])
    ∧ (survivesGrace ⟨true, true, none⟩ = false →
        (∀ e ∈ (kill_process ⟨true, true, none⟩).2, e.2 ≠ KillAction.kill)
      ∧ (∀ e ∈ (kill_node_process ⟨true, true, none⟩).2, e.2 ≠ KillAction.kill))
    ∧ (∀ n, (n, KillAction.kill) ∈ (kill_process ⟨true, true, none⟩).2 → gracePeriod ≤ n) :=
  kill_escalation ⟨true, true, none⟩ rfl rfl

/-- C10: `kill_process(pid)` (and `kill_node_process(pid)`) returns
`False` exactly when the target does not exist or signalling it is
denied; in every other case it returns `True` — in particular when the
grace period expires the unconditional kill is delivered and `True` is
returned without verifying that the target actually exited. -/
theorem kill_result_characterization (t : KillTarget) :
    ((kill_process t).1 = false ↔ (t.procExists = false ∨ t.accessible = false))
    ∧ ((kill_node_process t).1 = false ↔ (t.procExists = false ∨ t.accessible = false))
    ∧ (t.procExists = true → t.accessible = true → survivesGrace t = true →
        (kill_process t).1 = true ∧ (gracePeriod, KillAction.kill) ∈ (kill_process t).2) := by
  simp only [kill_node_process_eq]
  refine ⟨?_, ?_, ?_⟩
  · unfold kill_process
    cases hex : t.procExists <;> cases hacc : t.accessible <;> cases t.exitTime
    all_goals simp
    all_goals split <;> simp
  · unfold kill_process
    cases hex : t.procExists <;> cases hacc : t.accessible <;> cases t.exitTime
    all_goals simp
    all_goals split <;> simp
  · intro hex hacc hsur
    unfold kill_process
    unfold survivesGrace at hsur
    rw [hex, hacc]
    cases het : t.exitTime with
    | none => simp
    | some et =>
      rw [het] at hsur
      simp only [decide_eq_true_eq] at hsur
      simp only [Bool.and_self, if_true, het]
      rw [if_neg (Nat.not_le.mpr hsur)]
      simp

/-- Witness for C10: a non-existent target yields `False`; an existing,
accessible, never-exiting target yields `True` with the kill delivered. -/
theorem kill_result_characterization_witness :
    ((kill_process ⟨true, true, none⟩).1 = false ↔
        ((⟨true, true, none⟩ : KillTarget).procExists = false ∨
         (⟨true, true, none⟩ : KillTarget).accessible = false))
    ∧ ((kill_node_process ⟨true, true, none⟩).1 = false ↔
        ((⟨true, true, none⟩ : KillTarget).procExists = false ∨
         (⟨true, true, none⟩ : KillTarget).accessible = false))
    ∧ ((⟨true, true, none⟩ : KillTarget).procExists = true →
        (⟨true, true, none⟩ : KillTarget).accessible = true →
        survivesGrace ⟨true, true, none⟩ = true →
        (kill_process ⟨true, true, none⟩).1 = true ∧
          (gracePeriod, KillAction.kill) ∈ (kill_process ⟨true, true, none⟩).2) :=
  kill_result_characterization ⟨true, true, none⟩

/-! ## Filter (claim C4)

`DevDashApp._row_matches_filter` (app.py lines 479–487).  A rendered cell
text is a `List Char`; `cell.plain if isinstance(cell, Text) else
str(cell)` only extracts that text, so cells are modelled directly as
their texts.  Python's `str.lower` is modelled by ASCII
`Char.toLower`. -/

/-- `text.lower()`. -/
def lowerStr (s : List Char) : List Char := s.map Char.toLower

/-- `DevDashApp._row_matches_filter(cells)`: `True` when the filter text
is empty, otherwise whether the lowered filter occurs as a contiguous
substring of some lowered cell text. -/
def row_matches_filter (filterText : List Char) (cells : List (List Char)) : Bool :=
  if filterText.isEmpty then true
  else cells.any (fun cell => decide (lowerStr filterText <:+: lowerStr cell))

/-- The per-table row loop of `_update_dev_tables` / `_update_system_tab`
keeps exactly the rows matching the shared filter. -/
def filterRows (filterText : List Char) (rows : List (List (List Char))) :
    List (List (List Char)) :=
  rows.filter (fun cells => row_matches_filter filterText cells)

/-- C4: a row matches iff the filter string is a case-insensitive
substring of at least one of its displayed field texts, and the empty
filter matches every row, so filtering with the empty string yields the
unfiltered row list. -/
theorem row_matches_filter_spec (f : List Char) (cells : List (List Char))
    (rows : List (List (List Char))) (hne : cells ≠ []) :
    (row_matches_filter f cells = true ↔ ∃ cell ∈ cells, lowerStr f <:+: lowerStr cell)
    ∧ filterRows [] rows = rows := by
  constructor
  · unfold row_matches_filter
    cases f with
    | nil =>
      simp only [List.isEmpty_nil, if_true, true_iff]
      cases cells with
      | nil => exact absurd rfl hne
      | cons c cs => exact ⟨c, List.mem_cons_self c cs, List.nil_infix⟩
    | cons a as =>
      simp [List.any_eq_true]
  · unfold filterRows
    exact List.filter_eq_self.mpr (fun cells _ => by
      unfold row_matches_filter
      simp)

/-- Witness for C4: the filter "od" matches the row ["13", "Node App"]
case-insensitively, and the empty filter keeps a two-row list intact. -/
theorem row_matches_filter_spec_witness :
    (row_matches_filter ['o', 'd'] [['1', '3'], ['N', 'o', 'd', 'e']] = true ↔
      ∃ cell ∈ [['1', '3'], ['N', 'o', 'd', 'e']],
        lowerStr ['o', 'd'] <:+: lowerStr cell)
    ∧ filterRows [] [[['a']], [['b']]] = [[['a']], [['b']]] :=
  row_matches_filter_spec ['o', 'd'] [['1', '3'], ['N', 'o', 'd', 'e']]
    [[['a']], [['b']]] (by simp)

/-! ## Sort-column selection (claim C6)

`DevDashApp.on_data_table_header_selected` (app.py lines 509–519) keeps,
per table, `self._sort_state[table_id] = (col_index, reverse)`. -/

/-- One table's entry in `self._sort_state`. -/
structure SortSel where
  col : Nat
  reverse : Bool
deriving DecidableEq, Repr

/-- The sort-state update performed by `on_data_table_header_selected`:
`prev` is `self._sort_state.get(table_id)` (`none` when the table was
never sorted); the selected column becomes the sort column, with the
direction toggled when it was already the sort column and reset to
ascending (`reverse = false`) otherwise. -/
def header_selected (prev : Option SortSel) (col_index : Nat) : SortSel :=
  match prev with
  | some p => if p.col = col_index then ⟨col_index, !p.reverse⟩ else ⟨col_index, false⟩
  | none => ⟨col_index, false⟩

/-- C6: selecting the current sort column toggles the direction exactly
once, selecting a different column (or sorting a table for the first
time) resets the direction to ascending, and selecting the table's sort
column twice in a row returns the direction to its value before the two
selections. -/
theorem header_selected_spec (p : SortSel) (c : Nat) (r : Bool) :
    header_selected (some p) c
        = (if p.col = c then ⟨c, !p.reverse⟩ else ⟨c, false⟩)
    ∧ header_selected none c = ⟨c, false⟩
    ∧ header_selected (some (header_selected (some ⟨c, r⟩) c)) c = ⟨c, r⟩ := by
  refine ⟨rfl, rfl, ?_⟩
  simp [header_selected]

/-! ## Sort keys (claim C5)

`DevDashApp._parse_sort_value` (app.py lines 497–507):

    text = str(cell); text = text.strip().rstrip("%")
    match = re.match(r"^([\d.]+)", text)
    if match:
      try: return float(match.group(1))
      except ValueError: pass
    return text.lower()

Python `float()` on a `[\d.]+` string succeeds iff the string has at
most one dot and at least one digit; the resulting value is modelled as
the exact rational it denotes. -/

/-- `text.strip()` (whitespace at both ends). -/
def pyStrip (s : List Char) : List Char :=
  ((s.dropWhile Char.isWhitespace).reverse.dropWhile Char.isWhitespace).reverse

/-- `text.rstrip("%")`. -/
def rstripPercent (s : List Char) : List Char :=
  (s.reverse.dropWhile (· == '%')).reverse

/-- `re.match(r"^([\d.]+)", text)`: the longest prefix of digits and
dots (an empty result means no match). -/
def numPrefix (s : List Char) : List Char :=
  s.takeWhile (fun c => c.isDigit || c == '.')

/-- The natural number denoted by a digit string. -/
def digitsToNat (s : List Char) : Nat :=
  s.foldl (fun n c => 10 * n + (c.toNat - '0'.toNat)) 0

/-- `float(s)` for a digits-and-dots candidate `s`: defined iff `s` has
at most one dot and at least one digit, yielding the exact decimal
value. -/
def parseDecimal (s : List Char) : Option ℚ :=
  if s.all (fun c => c.isDigit || c == '.') ∧ s.count '.' ≤ 1 ∧ s.any Char.isDigit then
    let intPart := s.takeWhile (fun c => c != '.')
    let fracPart := (s.dropWhile (fun c => c != '.')).drop 1
    some ((digitsToNat intPart : ℚ) + (digitsToNat fracPart : ℚ) / (10 ^ fracPart.length))
  else none

/-- The value `_parse_sort_value` returns: a Python float (modelled as
`ℚ`) or a lowered string. -/
inductive SortKey where
  | num (q : ℚ)
  | str (s : List Char)
deriving DecidableEq, Repr

/-- `DevDashApp._parse_sort_value` (app.py lines 497–507). -/
def parse_sort_value (cell : List Char) : SortKey :=
  let text := rstripPercent (pyStrip cell)
  match parseDecimal (numPrefix text) with
  | some q => SortKey.num q
  | none => SortKey.str (lowerStr text)

/-- Python `<` on two strings (lexicographic by code point, a proper
prefix preceding its extensions). -/
def strLT : List Char → List Char → Bool
  | _, [] => false
  | [], _ :: _ => true
  | a :: as, b :: bs => decide (a < b) || (a == b && strLT as bs)

/-- Python `<` on two sort keys as `list.sort` evaluates it:
`some` of the comparison for two floats or two strings, `none` for a
float against a string — `TypeError: '<' not supported between instances
of 'float' and 'str'`. -/
def pyKeyLT : SortKey → SortKey → Option Bool
  | SortKey.num a, SortKey.num b => some (decide (a < b))
  | SortKey.str a, SortKey.str b => some (strLT a b)
  | _, _ => none

/-- Discriminates numeric keys from string keys. -/
def keyIsNum : SortKey → Bool
  | SortKey.num _ => true
  | SortKey.str _ => false

/-- C5, counterexample to the claim as stated: the comparison is *not*
total for every pair of cells in a column.  The ports column renders
`"3000"` for a process bound to port 3000 and `"-"` for a portless one;
the first cell's key is numeric, the second's is a string, and Python
raises `TypeError` when `list.sort` compares them. -/
theorem sort_comparison_undefined_on_ports_column :
    pyKeyLT (parse_sort_value ['3', '0', '0', '0']) (parse_sort_value ['-']) = none
    ∧ keyIsNum (parse_sort_value ['3', '0', '0', '0']) = true
    ∧ keyIsNum (parse_sort_value ['-']) = false := ⟨rfl, rfl, rfl⟩

/-- C5 (amended): the sort key is extracted by stripping whitespace and
trailing percent signs and parsing the leading digits-and-dots prefix;
two numeric keys compare numerically, two string keys compare
case-insensitively (both keys already lowered) — but the comparison is
well-defined exactly for pairs of cells whose keys have the same kind;
a numeric key against a string key has no defined order (Python raises
`TypeError`). -/
theorem pyKeyLT_characterization (c1 c2 : List Char) (q1 q2 : ℚ) (s1 s2 : List Char) :
    pyKeyLT (SortKey.num q1) (SortKey.num q2) = some (decide (q1 < q2))
    ∧ pyKeyLT (SortKey.str s1) (SortKey.str s2) = some (strLT s1 s2)
    ∧ ((pyKeyLT (parse_sort_value c1) (parse_sort_value c2)).isSome = true ↔
        keyIsNum (parse_sort_value c1) = keyIsNum (parse_sort_value c2)) := by
  refine ⟨rfl, rfl, ?_⟩
  cases parse_sort_value c1 <;> cases parse_sort_value c2 <;> simp [pyKeyLT, keyIsNum]

/-! ## The lexicographic string order is a linear order -/

theorem strLT_nil_right (s : List Char) : strLT s [] = false := by
  cases s <;> rfl

theorem strLT_cons_cons (a b : Char) (as bs : List Char) :
    strLT (a :: as) (b :: bs) = (decide (a < b) || (a == b && strLT as bs)) := rfl

theorem strLT_irrefl (s : List Char) : strLT s s = false := by
  induction s with
  | nil => rfl
  | cons a as ih => simp [strLT_cons_cons, ih]

theorem strLT_trans (s : List Char) :
    ∀ t u, strLT s t = true → strLT t u = true → strLT s u = true := by
  induction s with
  | nil =>
    intro t u h1 h2
    cases u with
    | nil => rw [strLT_nil_right] at h2; exact absurd h2 (by simp)
    | cons c cs => rfl
  | cons a as ih =>
    intro t u h1 h2
    cases t with
    | nil => rw [strLT_nil_right] at h1; exact absurd h1 (by simp)
    | cons b bs =>
      cases u with
      | nil => rw [strLT_nil_right] at h2; exact absurd h2 (by simp)
      | cons c cs =>
        rw [strLT_cons_cons] at h1 h2 ⊢
        simp only [Bool.or_eq_true, decide_eq_true_eq, Bool.and_eq_true, beq_iff_eq] at h1 h2 ⊢
        rcases h1 with h1 | ⟨rfl, h1⟩
        · rcases h2 with h2 | ⟨rfl, h2⟩
          · exact Or.inl (lt_trans h1 h2)
          · exact Or.inl h1
        · rcases h2 with h2 | ⟨rfl, h2⟩
          · exact Or.inl h2
          · exact Or.inr ⟨rfl, ih bs cs h1 h2⟩

theorem strLT_asymm (s : List Char) : ∀ t, strLT s t = true → strLT t s = false := by
  intro t h
  by_contra hc
  rw [Bool.not_eq_false] at hc
  have := strLT_trans s t s h hc
  rw [strLT_irrefl] at this
  exact absurd this (by simp)

theorem strLT_connex (s : List Char) : ∀ t, strLT s t = false → strLT t s = false → s = t := by
  induction s with
  | nil =>
    intro t h1 _
    cases t with
    | nil => rfl
    | cons b bs => exact absurd h1 (by simp [strLT])
  | cons a as ih =>
    intro t h1 h2
    cases t with
    | nil => exact absurd h2 (by simp [strLT])
    | cons b bs =>
      rw [strLT_cons_cons] at h1 h2
      simp only [Bool.or_eq_false_iff, decide_eq_false_iff_not, Bool.and_eq_false_iff,
        beq_eq_false_iff_ne, ne_eq] at h1 h2
      have hab : a = b := le_antisymm (le_of_not_lt h2.1) (le_of_not_lt h1.1)
      subst hab
      rcases h1.2 with h | h
      · exact absurd rfl h
      · rcases h2.2 with h' | h'
        · exact absurd rfl h'
        · rw [ih bs h h']

theorem strLE_trans (a b c : List Char) (h1 : strLT b a = false) (h2 : strLT c b = false) :
    strLT c a = false := by
  by_contra hc
  rw [Bool.not_eq_false] at hc
  rcases hab : strLT a b with - | -
  · have := strLT_connex a b hab h1
    subst this
    rw [hc] at h2
    exact absurd h2 (by simp)
  · have := strLT_trans c a b hc hab
    rw [this] at h2
    exact absurd h2 (by simp)

/-! ## The sort (claim C7)

`DevDashApp._sort_table` (app.py lines 521–540) collects each row's
cells, then runs `rows.sort(key=..., reverse=reverse)` — CPython's
stable sort.  A stable sort under a total preorder is uniquely
determined, so it is modelled by `List.mergeSort` (stable by
`List.sublist_mergeSort`); `reverse=True` is CPython's stable descending
sort, i.e. the stable sort under the flipped comparator.  Since Python
raises `TypeError` as soon as a numeric key meets a string key (any
mixed column aborts: some adjacent pair is mixed and every adjacent pair
is compared), the model returns `none` unless the column's keys all have
the same kind; the two cross-kind branches of `sortKeyLE` below are
unreachable in that case and are fixed arbitrarily (numeric before
string) only to keep the comparator a total preorder. -/

/-- The non-strict comparison `not (key2 < key1)` that a stable sort
resolves `list.sort` to; cross-kind values are unreachable under
`keysComparable` (Python raises instead). -/
def sortKeyLE : SortKey → SortKey → Bool
  | SortKey.num a, SortKey.num b => decide (a ≤ b)
  | SortKey.num _, SortKey.str _ => true
  | SortKey.str _, SortKey.num _ => false
  | SortKey.str a, SortKey.str b => !(strLT b a)

theorem sortKeyLE_refl (k : SortKey) : sortKeyLE k k = true := by
  cases k with
  | num a => simp [sortKeyLE]
  | str s => simp [sortKeyLE, strLT_irrefl]

theorem sortKeyLE_total (k1 k2 : SortKey) : (sortKeyLE k1 k2 || sortKeyLE k2 k1) = true := by
  cases k1 with
  | num a =>
    cases k2 with
    | num b => simp [sortKeyLE, le_total a b]
    | str s => simp [sortKeyLE]
  | str s =>
    cases k2 with
    | num b => simp [sortKeyLE]
    | str t =>
      simp only [sortKeyLE, Bool.or_eq_true, Bool.not_eq_true']
      rcases h : strLT s t with - | -
      · exact Or.inr rfl
      · exact Or.inl (strLT_asymm s t h)

theorem sortKeyLE_trans (k1 k2 k3 : SortKey) (h1 : sortKeyLE k1 k2 = true)
    (h2 : sortKeyLE k2 k3 = true) : sortKeyLE k1 k3 = true := by
  cases k1 with
  | num a =>
    cases k3 with
    | num c =>
      cases k2 with
      | num b =>
        simp only [sortKeyLE, decide_eq_true_eq] at h1 h2 ⊢
        exact le_trans h1 h2
      | str s => exact absurd h2 (by simp [sortKeyLE])
    | str s => simp [sortKeyLE]
  | str s =>
    cases k2 with
    | num b => exact absurd h1 (by simp [sortKeyLE])
    | str t =>
      cases k3 with
      | num c => exact absurd h2 (by simp [sortKeyLE])
      | str u =>
        simp only [sortKeyLE, Bool.not_eq_true'] at h1 h2 ⊢
        exact strLE_trans s t u h1 h2

/-- A rendered table row: its list of cell texts. -/
abbrev Row := List (List Char)

/-- The sort key of a row: `self._parse_sort_value(r[1][col_index])`. -/
def rowKey (col : Nat) (r : Row) : SortKey := parse_sort_value (r.getD col [])

/-- The row comparator `rows.sort(key=..., reverse=reverse)` sorts
stably under. -/
def rowLE (col : Nat) (reverse : Bool) (r1 r2 : Row) : Bool :=
  if reverse then sortKeyLE (rowKey col r2) (rowKey col r1)
  else sortKeyLE (rowKey col r1) (rowKey col r2)

/-- Whether all keys of the column have the same kind — exactly when
CPython's sort completes instead of raising `TypeError`. -/
def keysComparable (col : Nat) (rows : List Row) : Bool :=
  rows.all (fun r => keyIsNum (rowKey col r)) || rows.all (fun r => !keyIsNum (rowKey col r))

/-- The row reordering of `DevDashApp._sort_table` (app.py lines
521–540): `none` models the `TypeError` escape on a mixed column. -/
def sort_table (col : Nat) (reverse : Bool) (rows : List Row) : Option (List Row) :=
  if keysComparable col rows then some (rows.mergeSort (rowLE col reverse)) else none

theorem rowLE_trans (col : Nat) (rev : Bool) (a b c : Row) (h1 : rowLE col rev a b = true)
    (h2 : rowLE col rev b c = true) : rowLE col rev a c = true := by
  unfold rowLE at h1 h2 ⊢
  cases rev with
  | false =>
    simp only [if_neg Bool.false_ne_true] at h1 h2 ⊢
    exact sortKeyLE_trans _ _ _ h1 h2
  | true =>
    simp only [if_pos rfl] at h1 h2 ⊢
    exact sortKeyLE_trans _ _ _ h2 h1

theorem rowLE_total (col : Nat) (rev : Bool) (a b : Row) :
    (rowLE col rev a b || rowLE col rev b a) = true := by
  unfold rowLE
  cases rev with
  | false =>
    simp only [if_neg Bool.false_ne_true]
    exact sortKeyLE_total _ _
  | true =>
    simp only [if_pos rfl]
    rw [Bool.or_comm]
    exact sortKeyLE_total _ _

theorem rowLE_of_keys_eq (col : Nat) (rev : Bool) (a b : Row) (k : SortKey)
    (ha : rowKey col a = k) (hb : rowKey col b = k) : rowLE col rev a b = true := by
  unfold rowLE
  cases rev with
  | false => simp only [if_neg Bool.false_ne_true]; rw [ha, hb]; exact sortKeyLE_refl k
  | true => simp only [if_pos rfl]; rw [ha, hb]; exact sortKeyLE_refl k

/-- C7: whenever `_sort_table` completes (the column's keys are
comparable), the sort is stable — the rows holding any given sort key
`k` appear in the output in their original relative order — and
idempotent: sorting the output again with the same column and direction
succeeds and returns it unchanged. -/
theorem sort_table_stable_idempotent (col : Nat) (rev : Bool) (rows out : List Row)
    (k : SortKey) (h : sort_table col rev rows = some out) :
    out.filter (fun r => rowKey col r == k) = rows.filter (fun r => rowKey col r == k)
    ∧ sort_table col rev out = some out := by
  unfold sort_table at h
  rcases hcomp : keysComparable col rows with - | -
  · rw [hcomp] at h; exact absurd h (by simp)
  rw [hcomp, if_pos rfl] at h
  injection h with h
  subst h
  have perm : List.Perm (rows.mergeSort (rowLE col rev)) rows :=
    List.mergeSort_perm rows (rowLE col rev)
  constructor
  · have hpw : (rows.filter (fun r => rowKey col r == k)).Pairwise
        (fun a b => rowLE col rev a b) := by
      apply List.pairwise_of_forall_mem_list
      intro a ha b hb
      rw [List.mem_filter] at ha hb
      exact rowLE_of_keys_eq col rev a b k (by simpa using ha.2) (by simpa using hb.2)
    have hsub : List.Sublist (rows.filter (fun r => rowKey col r == k))
        (rows.mergeSort (rowLE col rev)) :=
      List.sublist_mergeSort (rowLE_trans col rev) (rowLE_total col rev) hpw
        (List.filter_sublist rows)
    have hsub2 : List.Sublist (rows.filter (fun r => rowKey col r == k))
        ((rows.mergeSort (rowLE col rev)).filter (fun r => rowKey col r == k)) := by
      have hff := hsub.filter (fun r => rowKey col r == k)
      rwa [List.filter_filter, (by funext r; simp [Bool.and_self] :
        (fun r => ((rowKey col r == k) && (rowKey col r == k))) =
          (fun r => rowKey col r == k))] at hff
    have hlen : ((rows.mergeSort (rowLE col rev)).filter (fun r => rowKey col r == k)).length
        = (rows.filter (fun r => rowKey col r == k)).length :=
      (perm.filter (fun r => rowKey col r == k)).length_eq
    exact (hsub2.eq_of_length hlen.symm).symm
  · have hcomp2 : keysComparable col (rows.mergeSort (rowLE col rev)) = true := by
      unfold keysComparable at hcomp ⊢
      simp only [Bool.or_eq_true, List.all_eq_true] at hcomp ⊢
      rcases hcomp with hc | hc
      · exact Or.inl (fun r hr => hc r (perm.mem_iff.mp hr))
      · exact Or.inr (fun r hr => hc r (perm.mem_iff.mp hr))
    have hsorted : (rows.mergeSort (rowLE col rev)).Pairwise (fun a b => rowLE col rev a b) :=
      List.sorted_mergeSort (rowLE_trans col rev) (rowLE_total col rev) rows
    unfold sort_table
    rw [hcomp2, if_pos rfl, List.mergeSort_of_sorted hsorted]

/-- Witness for C7 at a concrete input: the two-row string column
`[["a"], ["b"]]` is already sorted ascending, so sorting returns it
unchanged, and both conjuncts hold at `k = "a"`. -/
theorem sort_table_stable_idempotent_witness :
    ([[['a']], [['b']]] : List Row).filter (fun r => rowKey 0 r == SortKey.str ['a'])
      = ([[['a']], [['b']]] : List Row).filter (fun r => rowKey 0 r == SortKey.str ['a'])
    ∧ sort_table 0 false [[['a']], [['b']]] = some [[['a']], [['b']]] :=
  sort_table_stable_idempotent 0 false [[['a']], [['b']]] [[['a']], [['b']]]
    (SortKey.str ['a'])
    (by unfold sort_table
        rw [if_pos (by rfl : keysComparable 0 [[['a']], [['b']]] = true),
          List.mergeSort_of_sorted (by decide)])

/-! ## Cursor restoration (claim C8)

`_update_dev_tables` (app.py lines 690–699) and `_update_system_tab`
(lines 752–756) capture `table.cursor_row` before clearing, re-add the
filtered rows, and then run

    if count and cursor is not None:
        table.move_cursor(row=min(cursor, count - 1))

`count` is the number of rows that passed the filter.  The function
below returns the row index the cursor is moved to (`none` when no
`move_cursor` call is issued: empty table or no previous cursor). -/

/-- The cursor-restoration step of a table refresh. -/
def refresh_cursor (old_cursor : Option Nat) (row_count : Nat) : Option Nat :=
  match old_cursor with
  | some cur => if row_count ≠ 0 then some (min cur (row_count - 1)) else none
  | none => none

/-- A full table refresh as it affects the cursor: the new row list is
filtered and the old cursor is clamped against the visible row count. -/
def update_table_cursor (filterText : List Char) (old_cursor : Option Nat)
    (newRows : List (List (List Char))) : Option Nat :=
  refresh_cursor old_cursor (filterRows filterText newRows).length

/-- C8: after a refresh the previously focused row index is clamped to
`min(old_index, new_row_count − 1)`, and cursor tracking is positional:
the restored index depends only on the visible row count, so replacing
the entity at the cursor's index with a different entity leaves the
cursor at that same index instead of following the original entity. -/
theorem cursor_clamped_and_positional (f : List Char) (cur cnt : Nat) (old : Option Nat)
    (rows1 rows2 : List (List (List Char)))
    (hcnt : cnt ≠ 0) (hlen : (filterRows f rows1).length = (filterRows f rows2).length) :
    refresh_cursor (some cur) cnt = some (min cur (cnt - 1))
    ∧ update_table_cursor f old rows1 = update_table_cursor f old rows2 := by
  constructor
  · simp [refresh_cursor, hcnt]
  · unfold update_table_cursor
    rw [hlen]

/-- Witness for C8: a cursor on row 5 of a table that now shows 3 rows
is clamped to row 2, and two one-row tables holding different entities
restore the same cursor index. -/
theorem cursor_clamped_and_positional_witness :
    refresh_cursor (some 5) 3 = some (min 5 (3 - 1))
    ∧ update_table_cursor [] (some 0) [[['a']]] = update_table_cursor [] (some 0) [[['b']]] :=
  cursor_clamped_and_positional [] 5 3 (some 0) [[['a']]] [[['b']]] (by decide) rfl

/-! ## Refresh frame effect (claim C9)

`DevDashApp._update_all` (app.py lines 566–603) runs the reconciler,
stores the new snapshot fields, and re-renders every table.  The render
helpers read `self._filter_text` (via `_row_matches_filter`) and
`self._sort_state` (via `_apply_sort`) but never assign them, and no
statement in the refresh path touches `self._selected_pids` /
`self._selected_containers` (those sets change only in
`action_toggle_select` and `_on_batch_kill_confirmed`).  `AppState`
collects the fields `_update_all` can reach. -/

structure AppState where
  sort_state : List (String × Nat × Bool)
  filter_text : List Char
  selected_pids : List Nat
  selected_containers : List String
  check : CheckState
  node_procs : List NodeProcess
  docker_ids : List String
deriving Repr

/-- `DevDashApp._update_all`: reconcile against the baseline, replace
the stored snapshot, and return the emitted notifications.  View state
(sort, filter, selections) is carried through unchanged, mirroring the
absence of any assignment to those fields in the source. -/
def update_all (watched : List Nat) (st : AppState) (procs : List NodeProcess)
    (docker_ids : List String) : AppState × List Event :=
  let res := check_notifications watched st.check procs docker_ids
  ({ st with check := res.2, node_procs := procs, docker_ids := docker_ids }, res.1)

/-- C9: a poll-cycle refresh leaves each table's sort state, the shared
filter string and both selection sets unchanged; a selection on an
identity key persists across a refresh while the key remains present,
and a stale selection whose key vanished from the snapshot is retained
rather than purged. -/
theorem update_all_preserves_view_state (watched : List Nat) (st : AppState)
    (procs : List NodeProcess) (docker_ids : List String) (pid : Nat) (cid : String) :
    ((update_all watched st procs docker_ids).1.sort_state = st.sort_state)
    ∧ ((update_all watched st procs docker_ids).1.filter_text = st.filter_text)
    ∧ ((update_all watched st procs docker_ids).1.selected_pids = st.selected_pids)
    ∧ ((update_all watched st procs docker_ids).1.selected_containers = st.selected_containers)
    ∧ (pid ∈ st.selected_pids → pid ∈ procs.map (·.pid) →
        pid ∈ (update_all watched st procs docker_ids).1.selected_pids)
    ∧ (pid ∈ st.selected_pids → pid ∉ procs.map (·.pid) →
        pid ∈ (update_all watched st procs docker_ids).1.selected_pids)
    ∧ (cid ∈ st.selected_containers →
        cid ∈ (update_all watched st procs docker_ids).1.selected_containers) :=
  ⟨rfl, rfl, rfl, rfl, fun h _ => h, fun h _ => h, fun h => h⟩

/-- Witness for C9: pid 42 is selected; after a refresh whose snapshot
no longer contains 42 the selection set still holds it, and the sort,
filter and container-selection state are untouched. -/
theorem update_all_preserves_view_state_witness :
    ((update_all [] ⟨[("node-table", 2, true)], ['x'], [42], ["abc"], ⟨[], [], [], true⟩, [], []⟩
        [⟨7, []⟩] []).1.sort_state = [("node-table", 2, true)])
    ∧ ((update_all [] ⟨[("node-table", 2, true)], ['x'], [42], ["abc"], ⟨[], [], [], true⟩, [], []⟩
        [⟨7, []⟩] []).1.filter_text = ['x'])
    ∧ ((update_all [] ⟨[("node-table", 2, true)], ['x'], [42], ["abc"], ⟨[], [], [], true⟩, [], []⟩
        [⟨7, []⟩] []).1.selected_pids = [42])
    ∧ ((update_all [] ⟨[("node-table", 2, true)], ['x'], [42], ["abc"], ⟨[], [], [], true⟩, [], []⟩
        [⟨7, []⟩] []).1.selected_containers = ["abc"])
    ∧ (42 ∈ [42] → 42 ∈ ([⟨7, []⟩] : List NodeProcess).map (·.pid) →
        42 ∈ (update_all [] ⟨[("node-table", 2, true)], ['x'], [42], ["abc"], ⟨[], [], [], true⟩, [], []⟩
          [⟨7, []⟩] []).1.selected_pids)
    ∧ (42 ∈ [42] → 42 ∉ ([⟨7, []⟩] : List NodeProcess).map (·.pid) →
        42 ∈ (update_all [] ⟨[("node-table", 2, true)], ['x'], [42], ["abc"], ⟨[], [], [], true⟩, [], []⟩
          [⟨7, []⟩] []).1.selected_pids)
    ∧ ("abc" ∈ ["abc"] →
        "abc" ∈ (update_all [] ⟨[("node-table", 2, true)], ['x'], [42], ["abc"], ⟨[], [], [], true⟩, [], []⟩
          [⟨7, []⟩] []).1.selected_containers) :=
  update_all_preserves_view_state []
    ⟨[("node-table", 2, true)], ['x'], [42], ["abc"], ⟨[], [], [], true⟩, [], []⟩
    [⟨7, []⟩] [] 42 "abc"

end Devdash
